import Mathlib

/-!
Shallow embedding of the `RestServerTransport` correlation engine from
`src/server/rest.ts` of the chatmcp/typescript-sdk repository, together with
the two variants of the credential/argument lookup helper (`getParamValue`).

The embedding follows the source line by line:
* JSON-RPC messages are modelled structurally by the presence of their
  `id`, `method`, `result` and `error` members, with the `id` already
  stringified (the code only ever uses `String(msg.id)`).
* The `_pendingRequests` JavaScript `Map` is modelled as an association
  list in insertion order (`Map` iteration order), with `set` replacing an
  existing key in place and appending a fresh key at the end.
* The promise handed to `Promise.race` is modelled by a `resolved` flag on
  the pending entry: the body writer reads the entry's collected array
  after the race, which is the same array object the promise resolved with.
* `handlePostRequest` is modelled as a function from the ambient registry,
  the fresh batch identifier, the decoded message list and the list of
  `send` deliveries that occur before the race settles, to a trace of
  observable events (HTTP writes, registrations, downstream forwards) and
  the final registry.
-/

/-- A decoded JSON-RPC message, represented by which members are present.
`id?` holds `String(msg.id)` when the message has an `id` member; `method?`
is its `method` member; `hasResult`/`hasError` record the presence of the
`result`/`error` members; `payload` stands for the rest of the JSON object,
so that two responses with the same identifier remain distinguishable. -/
structure JSONRPCMessage where
  id? : Option String
  method? : Option String
  hasResult : Bool
  hasError : Bool
  payload : String
deriving DecidableEq, Repr

/-- Embeds `"method" in msg && "id" in msg` (rest.ts line 214). -/
def isRequestMsg (m : JSONRPCMessage) : Bool :=
  m.method?.isSome && m.id?.isSome

/-- Embeds `"method" in msg && !("id" in msg)` (rest.ts line 217). -/
def isNotificationMsg (m : JSONRPCMessage) : Bool :=
  m.method?.isSome && m.id?.isNone

/-- Embeds `"id" in message && ("result" in message || "error" in message)`:
the guard of `send` (rest.ts line 300). -/
def isResponseMsg (m : JSONRPCMessage) : Bool :=
  m.id?.isSome && (m.hasResult || m.hasError)

/-- Embeds `messages.some((msg) => "method" in msg && "id" in msg)` (line 213). -/
def hasRequests (messages : List JSONRPCMessage) : Bool :=
  messages.any isRequestMsg

/-- Embeds `messages.every((msg) => "method" in msg && !("id" in msg))` (line 216). -/
def hasOnlyNotifications (messages : List JSONRPCMessage) : Bool :=
  messages.all isNotificationMsg

/-- Embeds `String(msg.id)` for a message known to carry an id; for an
id-less message the default is irrelevant (only filtered requests are mapped). -/
def msgIdString (m : JSONRPCMessage) : String :=
  m.id?.getD ""

/-- Embeds `messages.filter((msg) => "method" in msg && "id" in msg).map((msg) => String(msg.id))`
(rest.ts lines 233-235). Duplicate identifiers are kept, as in the source. -/
def requestIdsOf (messages : List JSONRPCMessage) : List String :=
  (messages.filter isRequestMsg).map msgIdString

/-- One entry of `_pendingRequests` (rest.ts lines 42-49). `resolved`
records whether the entry's `resolve` callback has fired. -/
structure PendingRequest where
  responseMessages : List JSONRPCMessage
  requestIds : List String
  resolved : Bool
deriving DecidableEq, Repr

/-- The `_pendingRequests` table, a JavaScript `Map` in insertion order. -/
abbrev Registry := List (String × PendingRequest)

/-- Embeds `Map.set`: replace in place if the key exists, else append. -/
def mapSet (st : Registry) (k : String) (v : PendingRequest) : Registry :=
  if st.any (fun p => p.1 == k) then
    st.map (fun p => if p.1 == k then (k, v) else p)
  else
    st ++ [(k, v)]

/-- Embeds `Map.delete`. -/
def mapDelete (st : Registry) (k : String) : Registry :=
  st.filter (fun p => !(p.1 == k))

/-- The `for ... of this._pendingRequests.entries()` loop of `send`
(rest.ts lines 307-322): find the first entry whose `requestIds` contains
the stringified id, push the message onto its collected array, fire its
`resolve` when the collected count reaches the expected count, and `break`. -/
def deliverToBatches (mid : String) (msg : JSONRPCMessage) : Registry → Registry
  | [] => []
  | (bid, pr) :: rest =>
    if pr.requestIds.contains mid then
      (bid,
        { responseMessages := pr.responseMessages ++ [msg]
          requestIds := pr.requestIds
          resolved := pr.resolved ||
            (pr.responseMessages.length + 1 == pr.requestIds.length) }) :: rest
    else
      (bid, pr) :: deliverToBatches mid msg rest

/-- Embeds `send` (rest.ts lines 298-323): non-responses return immediately,
responses are routed to the first batch expecting their identifier. -/
def send (st : Registry) (message : JSONRPCMessage) : Registry :=
  match message.id? with
  | none => st
  | some i =>
    if message.hasResult || message.hasError then
      deliverToBatches i message st
    else
      st

/-- Whether the batch under this token has had its promise resolved. -/
def batchResolved (st : Registry) (batchId : String) : Bool :=
  match st.find? (fun p => p.1 == batchId) with
  | some p => p.2.resolved
  | none => false

/-- The value `await Promise.race(...)` yields (rest.ts lines 252-258):
the batch's collected array if its promise resolved, else the timeout's
empty array. -/
def raceResponses (st : Registry) (batchId : String) : List JSONRPCMessage :=
  match st.find? (fun p => p.1 == batchId) with
  | some p => if p.2.resolved then p.2.responseMessages else []
  | none => []

/-- An HTTP response body as written by `res.end`. -/
inductive HttpBody where
  | empty : HttpBody
  | single (m : JSONRPCMessage) : HttpBody
  | array (ms : List JSONRPCMessage) : HttpBody
deriving DecidableEq, Repr

/-- Embeds `responses.length === 1 ? responses[0] : responses` (rest.ts line 271). -/
def formatBody : List JSONRPCMessage → HttpBody
  | [r] => HttpBody.single r
  | rs => HttpBody.array rs

/-- Observable events of one `handlePostRequest` call, in program order. -/
inductive Event where
  | wroteHead (status : Nat) : Event
  | wroteBody (b : HttpBody) : Event
  | registered (batchId : String) (entry : PendingRequest) : Event
  | forwarded (m : JSONRPCMessage) : Event
  | deregistered (batchId : String) : Event
deriving DecidableEq, Repr

/-- Embeds `for (const message of messages) this.onmessage?.(message)`. -/
def forwardEvents (messages : List JSONRPCMessage) : List Event :=
  messages.map Event.forwarded

/-- Result of one modelled `handlePostRequest` call: its event trace and
the registry it leaves behind. -/
structure CallResult where
  events : List Event
  registry : Registry
deriving Repr

/-- Embeds `handlePostRequest` (rest.ts lines 212-273) after successful decoding.
`batchId` is the fresh `randomUUID()`; `deliveries` are the messages the
downstream handler passes to `send` between registration and the moment
the race settles (an empty suffix of matched deliveries means timeout). -/
def handlePostRequest (st : Registry) (batchId : String)
    (messages deliveries : List JSONRPCMessage) : CallResult :=
  if hasOnlyNotifications messages then
    { events := [Event.wroteHead 202, Event.wroteBody HttpBody.empty] ++
        forwardEvents messages
      registry := st }
  else if hasRequests messages then
    let entry : PendingRequest :=
      { responseMessages := [], requestIds := requestIdsOf messages
        resolved := false }
    let st1 := mapSet st batchId entry
    let st2 := deliveries.foldl send st1
    let responses := raceResponses st2 batchId
    let st3 := mapDelete st2 batchId
    { events := [Event.registered batchId entry] ++ forwardEvents messages ++
        [Event.deregistered batchId, Event.wroteHead 200,
         Event.wroteBody (formatBody responses)]
      registry := st3 }
  else
    { events := [], registry := st }

/-- JavaScript `a || b` on strings: the empty string is the only falsy
string, `undefined` lookups are conflated with it. -/
def jsOr (a b : String) : String :=
  if a = "" then b else a

/-- Property read on a string-valued record (`args[name]`, `process.env[name]`),
with `""` standing for both an absent key and an empty value (both falsy). -/
def lookupD (m : List (String × String)) (k : String) : String :=
  match m.find? (fun p => p.1 == k) with
  | some p => p.2
  | none => ""

/-- The six-step `||` chain shared by both variants of `getParamValue`
(part_000/part_001 lines 20-27): CLI argument under the exact name, its
upper-case form, its lower-case form, then the same three against the
environment, with `""` as the final fallback. -/
def paramChain (args env : List (String × String)) (name : String) : String :=
  jsOr (lookupD args name)
    (jsOr (lookupD args name.toUpper)
      (jsOr (lookupD args name.toLower)
        (jsOr (lookupD env name)
          (jsOr (lookupD env name.toUpper)
            (lookupD env name.toLower)))))

/-- Embeds `getParamValue` of src/unnamed/part_000 (lines 14-30): when no
CLI-style arguments were parsed at all it returns `""` immediately,
without consulting the environment. -/
def getParamValue_v0 (args env : List (String × String)) (name : String) : String :=
  if args.isEmpty then "" else paramChain args env name

/-- Embeds `getParamValue` of src/unnamed/part_001 (lines 14-30): when no
CLI-style arguments were parsed it proceeds with an empty argument record,
so the environment is still consulted. -/
def getParamValue_v1 (args env : List (String × String)) (name : String) : String :=
  if args.isEmpty then paramChain [] env name else paramChain args env name

/-- Whether one `send msg` call is routed into a batch expecting `ids`:
the message passes the response guard and its stringified identifier is
contained in `ids` (the `requestIds.includes(messageId)` test). -/
def matchesBatch (ids : List String) (d : JSONRPCMessage) : Bool :=
  isResponseMsg d && ids.contains (msgIdString d)

/-- Cumulative effect of a sequence of `send` calls on a single batch
expecting `ids`, starting from collected list `acc` and resolution flag
`r`: matched deliveries are appended in order and the flag fires when the
collected count reaches the expected count. -/
def foldBatch (ids : List String) (acc : List JSONRPCMessage) (r : Bool) :
    List JSONRPCMessage → List JSONRPCMessage × Bool
  | [] => (acc, r)
  | d :: ds =>
    if matchesBatch ids d then
      foldBatch ids (acc ++ [d]) (r || (acc.length + 1 == ids.length)) ds
    else
      foldBatch ids acc r ds

/-- The responses an isolated request-bearing call hands to the HTTP
writer: the matched deliveries in arrival order if the batch resolved,
else the timeout's empty array. Proved equal to what `handlePostRequest`
computes in `raceResponses_single`. -/
def collectedResponses (bid : String)
    (messages deliveries : List JSONRPCMessage) : List JSONRPCMessage :=
  if batchResolved
      (deliveries.foldl send
        (mapSet [] bid ⟨[], requestIdsOf messages, false⟩)) bid then
    deliveries.filter (matchesBatch (requestIdsOf messages))
  else
    []

/-- Temporal precedence on an event trace: every event satisfying `P`
occurs at a strictly earlier position than every event satisfying `Q`. -/
def eventsBefore (P Q : Event → Prop) (evs : List Event) : Prop :=
  ∀ i j (hi : i < evs.length) (hj : j < evs.length),
    P evs[i] → Q evs[j] → i < j

/-- A concrete JSON-RPC request message, for witnesses. -/
def reqMsg (i meth : String) : JSONRPCMessage :=
  ⟨some i, some meth, false, false, ""⟩

/-- A concrete JSON-RPC notification message, for witnesses. -/
def notifMsg (meth : String) : JSONRPCMessage :=
  ⟨none, some meth, false, false, ""⟩

/-- A concrete JSON-RPC response message, for witnesses. -/
def respMsg (i pl : String) : JSONRPCMessage :=
  ⟨some i, none, true, false, pl⟩

/-- A first response bearing identifier "1". -/
def respOne : JSONRPCMessage := respMsg "1" "ra"

/-- A second, distinct response bearing the same identifier "1". -/
def respOneDup : JSONRPCMessage := respMsg "1" "rb"

/-- A pending batch expecting identifiers "1" and "2". -/
def demoBatch : PendingRequest := ⟨[], ["1", "2"], false⟩

/-- A request with identifier "1" and method "a". -/
def reqDupA : JSONRPCMessage := reqMsg "1" "a"

/-- A second request sharing identifier "1", with method "b". -/
def reqDupB : JSONRPCMessage := reqMsg "1" "b"

/-! ### Helper lemmas -/

theorem hasOnlyNotifications_eq_false_of_hasRequests
    {messages : List JSONRPCMessage} (h : hasRequests messages = true) :
    hasOnlyNotifications messages = false := by
  rw [hasRequests, List.any_eq_true] at h
  obtain ⟨m, hm, hreq⟩ := h
  rw [isRequestMsg, Bool.and_eq_true] at hreq
  obtain ⟨hmeth, hid⟩ := hreq
  rw [hasOnlyNotifications, ← Bool.not_eq_true, List.all_eq_true]
  intro hall
  have hnot := hall m hm
  rw [isNotificationMsg, Bool.and_eq_true] at hnot
  rw [Option.isSome_iff_exists] at hid
  obtain ⟨v, hv⟩ := hid
  rw [hv] at hnot
  simp at hnot

theorem requestIdsOf_ne_nil {messages : List JSONRPCMessage}
    (h : hasRequests messages = true) : requestIdsOf messages ≠ [] := by
  rw [hasRequests, List.any_eq_true] at h
  obtain ⟨m, hm, hreq⟩ := h
  rw [requestIdsOf]
  intro hemp
  rw [List.map_eq_nil_iff] at hemp
  have hmem : m ∈ messages.filter isRequestMsg := List.mem_filter.2 ⟨hm, hreq⟩
  rw [hemp] at hmem
  exact absurd hmem (List.not_mem_nil m)

theorem send_single (bid : String) (pr : PendingRequest) (d : JSONRPCMessage) :
    send [(bid, pr)] d =
      if matchesBatch pr.requestIds d then
        [(bid, { responseMessages := pr.responseMessages ++ [d]
                 requestIds := pr.requestIds
                 resolved := pr.resolved ||
                   (pr.responseMessages.length + 1 == pr.requestIds.length) })]
      else [(bid, pr)] := by
  obtain ⟨oid, om, hr, he, pl⟩ := d
  cases oid with
  | none => simp [send, matchesBatch, isResponseMsg]
  | some i =>
    cases hre : (hr || he) with
    | false =>
      simp [send, matchesBatch, isResponseMsg, hre]
    | true =>
      by_cases hc : pr.requestIds.contains i = true
      · simp [send, matchesBatch, isResponseMsg, msgIdString, hre, hc,
          deliverToBatches]
      · simp [send, matchesBatch, isResponseMsg, msgIdString, hre,
          deliverToBatches, hc]

theorem foldl_send_single (bid : String) (ids : List String)
    (ds : List JSONRPCMessage) :
    ∀ (acc : List JSONRPCMessage) (r : Bool),
    ds.foldl send [(bid, ⟨acc, ids, r⟩)] =
      [(bid, ⟨(foldBatch ids acc r ds).1, ids, (foldBatch ids acc r ds).2⟩)] := by
  induction ds with
  | nil => intro acc r; rfl
  | cons d ds ih =>
    intro acc r
    rw [List.foldl_cons, send_single]
    by_cases h : matchesBatch ids d = true
    · rw [if_pos h, foldBatch, if_pos h]
      exact ih _ _
    · rw [if_neg h, foldBatch, if_neg h]
      exact ih _ _

theorem foldBatch_fst (ids : List String) (ds : List JSONRPCMessage) :
    ∀ (acc : List JSONRPCMessage) (r : Bool),
    (foldBatch ids acc r ds).1 = acc ++ ds.filter (matchesBatch ids) := by
  induction ds with
  | nil => intro acc r; simp [foldBatch]
  | cons d ds ih =>
    intro acc r
    by_cases h : matchesBatch ids d = true
    · rw [foldBatch, if_pos h, ih, List.filter_cons_of_pos h]
      simp
    · rw [foldBatch, if_neg h, ih, List.filter_cons_of_neg (by simp [h])]

theorem foldBatch_complete (ids : List String) (ds : List JSONRPCMessage) :
    ∀ (acc : List JSONRPCMessage) (r : Bool), ds ≠ [] →
    (∀ d ∈ ds, matchesBatch ids d = true) →
    acc.length + ds.length = ids.length →
    (foldBatch ids acc r ds).2 = true := by
  induction ds with
  | nil => intro acc r hne _ _; exact absurd rfl hne
  | cons d tl ih =>
    intro acc r _ hall hlen
    rw [foldBatch, if_pos (hall d (List.mem_cons_self d tl))]
    cases tl with
    | nil =>
      have h1 : acc.length + 1 = ids.length := by simpa using hlen
      simp [foldBatch, h1]
    | cons e tl' =>
      refine ih (acc ++ [d]) _ (by simp)
        (fun x hx => hall x (List.mem_cons_of_mem _ hx)) ?_
      simp only [List.length_append, List.length_cons,
        List.length_nil] at hlen ⊢
      omega

theorem deliverToBatches_no_match (mid : String) (msg : JSONRPCMessage) :
    ∀ st : Registry, (∀ p ∈ st, p.2.requestIds.contains mid = false) →
    deliverToBatches mid msg st = st := by
  intro st
  induction st with
  | nil => intro _; rfl
  | cons p rest ih =>
    intro h
    obtain ⟨b, pr⟩ := p
    have hhead : pr.requestIds.contains mid = false :=
      h (b, pr) (List.mem_cons_self _ _)
    have hneg : ¬ (pr.requestIds.contains mid = true) := by
      rw [hhead]; exact Bool.false_ne_true
    rw [deliverToBatches, if_neg hneg,
      ih (fun q hq => h q (List.mem_cons_of_mem _ hq))]

theorem raceResponses_of_not_resolved {st : Registry} {bid : String}
    (h : batchResolved st bid = false) : raceResponses st bid = [] := by
  rw [batchResolved] at h
  rw [raceResponses]
  cases hf : st.find? (fun p => p.1 == bid) with
  | none => rfl
  | some p =>
    rw [hf] at h
    have h2 : p.2.resolved = false := h
    simp [h2]

theorem find?_mapDelete (st : Registry) (k : String) :
    (mapDelete st k).find? (fun p => p.1 == k) = none := by
  rw [List.find?_eq_none]
  intro x hx
  have hmem := (List.mem_filter.1 hx).2
  simp only [Bool.not_eq_true'] at hmem
  simp [hmem]

theorem batchResolved_singleton (bid : String) (pr : PendingRequest) :
    batchResolved [(bid, pr)] bid = pr.resolved := by
  simp [batchResolved, List.find?]

theorem raceResponses_singleton (bid : String) (pr : PendingRequest) :
    raceResponses [(bid, pr)] bid =
      if pr.resolved then pr.responseMessages else [] := by
  simp [raceResponses, List.find?]

theorem mapSet_nil (k : String) (v : PendingRequest) :
    mapSet [] k v = [(k, v)] := by
  simp [mapSet]

theorem handlePostRequest_req (st : Registry) (bid : String)
    (messages deliveries : List JSONRPCMessage)
    (hreq : hasRequests messages = true) :
    handlePostRequest st bid messages deliveries =
      { events := [Event.registered bid ⟨[], requestIdsOf messages, false⟩] ++
          forwardEvents messages ++
          [Event.deregistered bid, Event.wroteHead 200,
           Event.wroteBody (formatBody (raceResponses
             (deliveries.foldl send
               (mapSet st bid ⟨[], requestIdsOf messages, false⟩)) bid))]
        registry := mapDelete
          (deliveries.foldl send
            (mapSet st bid ⟨[], requestIdsOf messages, false⟩)) bid } := by
  have hnn := hasOnlyNotifications_eq_false_of_hasRequests hreq
  simp [handlePostRequest, hnn, hreq]

theorem raceResponses_single (bid : String)
    (messages deliveries : List JSONRPCMessage) :
    raceResponses
      (deliveries.foldl send (mapSet [] bid ⟨[], requestIdsOf messages, false⟩))
      bid = collectedResponses bid messages deliveries := by
  rw [collectedResponses, mapSet_nil, foldl_send_single, batchResolved_singleton,
    raceResponses_singleton, foldBatch_fst]
  simp

theorem formatBody_of_length_ne_one {rs : List JSONRPCMessage}
    (h : ¬ rs.length = 1) : formatBody rs = HttpBody.array rs := by
  match rs with
  | [] => rfl
  | [r] => exact absurd rfl h
  | a :: b :: t => rfl

theorem eventsBefore_append (P Q : Event → Prop) (xs ys : List Event)
    (hys : ∀ e ∈ ys, ¬ P e) (hxs : ∀ e ∈ xs, ¬ Q e) :
    eventsBefore P Q (xs ++ ys) := by
  intro i j hi hj hP hQ
  have hilen : i < xs.length := by
    by_contra hge
    push_neg at hge
    have hlt : i - xs.length < ys.length := by
      rw [List.length_append] at hi; omega
    have heq : (xs ++ ys)[i] = ys[i - xs.length] :=
      List.getElem_append_right hge
    exact hys _ (List.getElem_mem hlt) (heq ▸ hP)
  have hjlen : xs.length ≤ j := by
    by_contra hlt
    push_neg at hlt
    have heq : (xs ++ ys)[j] = xs[j] := List.getElem_append_left hlt
    exact hxs _ (List.getElem_mem hlt) (heq ▸ hQ)
  omega

/-! ### Claim theorems -/

/-- C3: an HTTP POST whose decoded body consists exclusively of
Notification messages (every message has a method and no id) returns
HTTP 202 with an empty body, creates no entry in the pending-batch
registry, and the 202 envelope is written before any message is forwarded
to the downstream onmessage handler. -/
theorem c3_notification_only_call (st : Registry) (bid : String)
    (messages deliveries : List JSONRPCMessage)
    (h : hasOnlyNotifications messages = true) :
    (handlePostRequest st bid messages deliveries).events =
      [Event.wroteHead 202, Event.wroteBody HttpBody.empty] ++
        forwardEvents messages ∧
    (handlePostRequest st bid messages deliveries).registry = st ∧
    eventsBefore
      (fun e => e = Event.wroteHead 202 ∨ e = Event.wroteBody HttpBody.empty)
      (fun e => ∃ m, e = Event.forwarded m)
      (handlePostRequest st bid messages deliveries).events := by
  have hev : (handlePostRequest st bid messages deliveries).events =
      [Event.wroteHead 202, Event.wroteBody HttpBody.empty] ++
        forwardEvents messages := by
    simp [handlePostRequest, h]
  refine ⟨hev, by simp [handlePostRequest, h], ?_⟩
  rw [hev]
  apply eventsBefore_append
  · intro e he hP
    rw [forwardEvents] at he
    obtain ⟨m, -, rfl⟩ := List.mem_map.1 he
    rcases hP with h1 | h1 <;> exact Event.noConfusion h1
  · intro e he hQ
    obtain ⟨m, rfl⟩ := hQ
    simp at he

/-- C7: for a request-bearing call, the Pending Batch (with empty
collected list and the call's request-identifier list fully initialized)
is inserted into the registry strictly before any message of the call is
forwarded to the downstream onmessage handler. -/
theorem c7_registration_precedes_forwarding (st : Registry) (bid : String)
    (messages deliveries : List JSONRPCMessage)
    (hreq : hasRequests messages = true) :
    (handlePostRequest st bid messages deliveries).events.head? =
      some (Event.registered bid ⟨[], requestIdsOf messages, false⟩) ∧
    eventsBefore (fun e => ∃ en, e = Event.registered bid en)
      (fun e => ∃ m, e = Event.forwarded m)
      (handlePostRequest st bid messages deliveries).events := by
  rw [handlePostRequest_req st bid messages deliveries hreq]
  refine ⟨rfl, ?_⟩
  show eventsBefore _ _
    ([Event.registered bid ⟨[], requestIdsOf messages, false⟩] ++
      forwardEvents messages ++ _)
  rw [List.append_assoc]
  apply eventsBefore_append
  · intro e he hP
    obtain ⟨en, rfl⟩ := hP
    rcases List.mem_append.1 he with he1 | he1
    · rw [forwardEvents] at he1
      obtain ⟨m, -, h1⟩ := List.mem_map.1 he1
      exact Event.noConfusion h1
    · simp at he1
  · intro e he hQ
    obtain ⟨m, rfl⟩ := hQ
    simp at he

/-- C9: a syntactically valid POST body that contains no Request message
and is not notification-only (for example responses, or a mix of
notifications and responses) produces no HTTP response events at all,
forwards nothing downstream, and leaves the registry unchanged. -/
theorem c9_no_request_no_notification_call (st : Registry) (bid : String)
    (messages deliveries : List JSONRPCMessage)
    (hnoreq : hasRequests messages = false)
    (hnotonly : hasOnlyNotifications messages = false) :
    (handlePostRequest st bid messages deliveries).events = [] ∧
    (handlePostRequest st bid messages deliveries).registry = st := by
  constructor <;> simp [handlePostRequest, hnoreq, hnotonly]

/-- C4: a request-bearing call whose batch never resolves returns, after
the timeout, HTTP 200 with an empty array body, and the registry holds no
entry for that batch afterward. -/
theorem c4_timeout_empty_array (st : Registry) (bid : String)
    (messages deliveries : List JSONRPCMessage)
    (hreq : hasRequests messages = true)
    (hunres : batchResolved
        (deliveries.foldl send
          (mapSet st bid ⟨[], requestIdsOf messages, false⟩)) bid = false) :
    Event.wroteHead 200 ∈ (handlePostRequest st bid messages deliveries).events ∧
    Event.wroteBody (HttpBody.array []) ∈
      (handlePostRequest st bid messages deliveries).events ∧
    (handlePostRequest st bid messages deliveries).registry.find?
      (fun p => p.1 == bid) = none := by
  have hr : raceResponses
      (deliveries.foldl send
        (mapSet st bid ⟨[], requestIdsOf messages, false⟩)) bid = [] :=
    raceResponses_of_not_resolved hunres
  rw [handlePostRequest_req st bid messages deliveries hreq]
  refine ⟨by simp, ?_, find?_mapDelete _ _⟩
  simp [hr, formatBody]

/-- Witness for C3 at the concrete notification-only call of §8. -/
theorem c3_witness :
    hasOnlyNotifications [notifMsg "notify"] = true ∧
    ((handlePostRequest [] "b0" [notifMsg "notify"] []).events =
      [Event.wroteHead 202, Event.wroteBody HttpBody.empty] ++
        forwardEvents [notifMsg "notify"] ∧
     (handlePostRequest [] "b0" [notifMsg "notify"] []).registry = [] ∧
     eventsBefore
       (fun e => e = Event.wroteHead 202 ∨ e = Event.wroteBody HttpBody.empty)
       (fun e => ∃ m, e = Event.forwarded m)
       (handlePostRequest [] "b0" [notifMsg "notify"] []).events) :=
  ⟨by decide, c3_notification_only_call [] "b0" [notifMsg "notify"] [] (by decide)⟩

/-- Witness for C7 at a concrete single-request call. -/
theorem c7_witness :
    hasRequests [reqMsg "1" "ping"] = true ∧
    ((handlePostRequest [] "b0" [reqMsg "1" "ping"] []).events.head? =
      some (Event.registered "b0" ⟨[], requestIdsOf [reqMsg "1" "ping"], false⟩) ∧
     eventsBefore (fun e => ∃ en, e = Event.registered "b0" en)
       (fun e => ∃ m, e = Event.forwarded m)
       (handlePostRequest [] "b0" [reqMsg "1" "ping"] []).events) :=
  ⟨by decide, c7_registration_precedes_forwarding [] "b0" [reqMsg "1" "ping"] [] (by decide)⟩

/-- Witness for C9 at a concrete response-only body. -/
theorem c9_witness :
    hasRequests [respMsg "1" "r"] = false ∧
    hasOnlyNotifications [respMsg "1" "r"] = false ∧
    ((handlePostRequest [] "b0" [respMsg "1" "r"] []).events = [] ∧
     (handlePostRequest [] "b0" [respMsg "1" "r"] []).registry = []) :=
  ⟨by decide, by decide,
    c9_no_request_no_notification_call [] "b0" [respMsg "1" "r"] [] (by decide) (by decide)⟩

/-- Witness for C4 at a concrete call receiving no deliveries at all. -/
theorem c4_witness :
    hasRequests [reqMsg "1" "ping"] = true ∧
    batchResolved
      (List.foldl send
        (mapSet [] "b0" ⟨[], requestIdsOf [reqMsg "1" "ping"], false⟩) []) "b0" = false ∧
    (Event.wroteHead 200 ∈ (handlePostRequest [] "b0" [reqMsg "1" "ping"] []).events ∧
     Event.wroteBody (HttpBody.array []) ∈
       (handlePostRequest [] "b0" [reqMsg "1" "ping"] []).events ∧
     (handlePostRequest [] "b0" [reqMsg "1" "ping"] []).registry.find?
       (fun p => p.1 == "b0") = none) :=
  ⟨by decide, by decide,
    c4_timeout_empty_array [] "b0" [reqMsg "1" "ping"] [] (by decide) (by decide)⟩

/-- C5: a message that is not a Response (it lacks an id, or lacks both a
result and an error member), or whose identifier is not contained in any
registered batch's expected-identifier list, leaves the whole registry
(every batch's collected responses and resolution state) unchanged when
passed to send. -/
theorem c5_send_ignores_unmatched (st : Registry) (message : JSONRPCMessage)
    (h : isResponseMsg message = false ∨
      ∀ p ∈ st, p.2.requestIds.contains (msgIdString message) = false) :
    send st message = st := by
  rcases h with h | h
  · rw [isResponseMsg] at h
    rw [send]
    cases hid : message.id? with
    | none => rfl
    | some i =>
      rw [hid] at h
      simp only [Option.isSome_some, Bool.true_and] at h
      simp [h]
  · rw [send]
    cases hid : message.id? with
    | none => rfl
    | some i =>
      cases hre : (message.hasResult || message.hasError) with
      | false => simp
      | true =>
        simp only [if_true]
        have hi : msgIdString message = i := by rw [msgIdString, hid]; rfl
        rw [hi] at h
        exact deliverToBatches_no_match i message st h

/-- Witness for C5: a notification and a response for an unknown
identifier both leave a populated registry untouched. -/
theorem c5_witness :
    (isResponseMsg (notifMsg "n") = false ∨
      ∀ p ∈ [("b0", demoBatch)], p.2.requestIds.contains (msgIdString (notifMsg "n")) = false) ∧
    send [("b0", demoBatch)] (notifMsg "n") = [("b0", demoBatch)] :=
  ⟨Or.inl (by decide),
    c5_send_ignores_unmatched [("b0", demoBatch)] (notifMsg "n") (Or.inl (by decide))⟩

/-- C10: send appends to the first batch expecting the response's
identifier every matching Response — with no hypothesis excluding an
identifier already collected, so a second Response for the same
identifier is appended too — and fires completion exactly when the count
of appended responses reaches the length of the request-identifier list;
concretely, a batch expecting "1" and "2" completes after two responses
for "1" while "2" never received any response. -/
theorem c10_duplicate_responses_complete (bid : String) (pr : PendingRequest)
    (rest : Registry) (msg : JSONRPCMessage) (i : String)
    (hid : msg.id? = some i)
    (hre : msg.hasResult = true ∨ msg.hasError = true)
    (hmem : pr.requestIds.contains i = true) :
    send ((bid, pr) :: rest) msg =
      (bid, { responseMessages := pr.responseMessages ++ [msg]
              requestIds := pr.requestIds
              resolved := pr.resolved ||
                (pr.responseMessages.length + 1 == pr.requestIds.length) }) :: rest ∧
    send (send [("b", demoBatch)] respOne) respOneDup =
      [("b", ⟨[respOne, respOneDup], ["1", "2"], true⟩)] ∧
    batchResolved (send (send [("b", demoBatch)] respOne) respOneDup) "b" = true ∧
    (∀ r ∈ [respOne, respOneDup], ¬ r.id? = some "2") := by
  refine ⟨?_, by decide, by decide, by decide⟩
  have hor : (msg.hasResult || msg.hasError) = true := by
    rcases hre with h | h <;> simp [h]
  rw [send, hid]
  simp only [hor, if_true]
  rw [deliverToBatches, if_pos hmem]

/-- Witness for C10 at the concrete duplicate-response scenario. -/
theorem c10_witness :
    respOne.id? = some "1" ∧
    (respOne.hasResult = true ∨ respOne.hasError = true) ∧
    demoBatch.requestIds.contains "1" = true ∧
    (send [("x", demoBatch)] respOne =
      [("x", { responseMessages := demoBatch.responseMessages ++ [respOne]
               requestIds := demoBatch.requestIds
               resolved := demoBatch.resolved ||
                 (demoBatch.responseMessages.length + 1 ==
                   demoBatch.requestIds.length) })] ∧
     send (send [("b", demoBatch)] respOne) respOneDup =
       [("b", ⟨[respOne, respOneDup], ["1", "2"], true⟩)] ∧
     batchResolved (send (send [("b", demoBatch)] respOne) respOneDup) "b" = true ∧
     (∀ r ∈ [respOne, respOneDup], ¬ r.id? = some "2")) :=
  ⟨by decide, Or.inl (by decide), by decide,
    c10_duplicate_responses_complete "x" demoBatch [] respOne "1"
      (by decide) (Or.inl (by decide)) (by decide)⟩

/-- C2 is refuted on the code: two Requests sharing identifier "1"
register the expected list ["1", "1"] — the duplicate is not collapsed to
one slot — and delivering one Response for the single distinct identifier
does not complete the batch. -/
theorem c2_counterexample :
    requestIdsOf [reqDupA, reqDupB] = ["1", "1"] ∧
    ¬ (requestIdsOf [reqDupA, reqDupB]).Nodup ∧
    (requestIdsOf [reqDupA, reqDupB]).dedup = ["1"] ∧
    batchResolved
      (send (mapSet [] "b0" ⟨[], requestIdsOf [reqDupA, reqDupB], false⟩)
        respOne) "b0" = false := by
  refine ⟨by decide, by decide, by decide, by decide⟩

/-- C2 amended: the Pending Batch keeps one expected slot per Request
message — `requestIds` preserves duplicate identifiers — and completion
requires the collected count to reach the number of Request messages in
the call, counting duplicates with multiplicity. -/
theorem c2_amended_per_occurrence (st : Registry) (bid : String)
    (messages ds : List JSONRPCMessage)
    (hreq : hasRequests messages = true)
    (hne : ds ≠ [])
    (hall : ∀ d ∈ ds, matchesBatch (requestIdsOf messages) d = true)
    (hlen : ds.length = (requestIdsOf messages).length) :
    (handlePostRequest st bid messages ds).events.head? =
      some (Event.registered bid ⟨[], requestIdsOf messages, false⟩) ∧
    (requestIdsOf messages).length = (messages.filter isRequestMsg).length ∧
    batchResolved (ds.foldl send [(bid, ⟨[], requestIdsOf messages, false⟩)])
      bid = true := by
  refine ⟨?_, ?_, ?_⟩
  · rw [handlePostRequest_req st bid messages ds hreq]; rfl
  · rw [requestIdsOf, List.length_map]
  · rw [foldl_send_single, batchResolved_singleton]
    exact foldBatch_complete _ ds [] false hne hall (by simpa using hlen)

/-- Witness for the amended C2: the duplicate-identifier call completes
only after two matching responses, one per Request occurrence. -/
theorem c2_amended_witness :
    hasRequests [reqDupA, reqDupB] = true ∧
    [respOne, respOneDup] ≠ ([] : List JSONRPCMessage) ∧
    (∀ d ∈ [respOne, respOneDup],
      matchesBatch (requestIdsOf [reqDupA, reqDupB]) d = true) ∧
    ([respOne, respOneDup] : List JSONRPCMessage).length =
      (requestIdsOf [reqDupA, reqDupB]).length ∧
    ((handlePostRequest [] "b0" [reqDupA, reqDupB] [respOne, respOneDup]).events.head? =
      some (Event.registered "b0" ⟨[], requestIdsOf [reqDupA, reqDupB], false⟩) ∧
     (requestIdsOf [reqDupA, reqDupB]).length =
       ([reqDupA, reqDupB].filter isRequestMsg).length ∧
     batchResolved
       (([respOne, respOneDup] : List JSONRPCMessage).foldl send
         [("b0", ⟨[], requestIdsOf [reqDupA, reqDupB], false⟩)]) "b0" = true) :=
  ⟨by decide, by decide, by decide, by decide,
    c2_amended_per_occurrence [] "b0" [reqDupA, reqDupB] [respOne, respOneDup]
      (by decide) (by decide) (by decide) (by decide)⟩

/-- C1: for an isolated request-bearing call with distinct expected
identifiers, if every expected identifier receives exactly one Response
via send before the timeout — in any delivery order — the HTTP call
returns 200 and its body is exactly the collected responses and no
others. -/
theorem c1_complete_batch_returns_all_responses (bid : String)
    (messages deliveries : List JSONRPCMessage)
    (hreq : hasRequests messages = true)
    (hnodup : (requestIdsOf messages).Nodup)
    (hresp : ∀ d ∈ deliveries, isResponseMsg d = true)
    (hperm : (deliveries.map msgIdString).Perm (requestIdsOf messages)) :
    Event.wroteHead 200 ∈ (handlePostRequest [] bid messages deliveries).events ∧
    Event.wroteBody (formatBody deliveries) ∈
      (handlePostRequest [] bid messages deliveries).events := by
  have hids_ne : requestIdsOf messages ≠ [] := requestIdsOf_ne_nil hreq
  have hlen : deliveries.length = (requestIdsOf messages).length := by
    have h := hperm.length_eq
    rwa [List.length_map] at h
  have hne : deliveries ≠ [] := by
    intro h
    rw [h] at hlen
    exact hids_ne (List.length_eq_zero.1 hlen.symm)
  have hall : ∀ d ∈ deliveries, matchesBatch (requestIdsOf messages) d = true := by
    intro d hd
    rw [matchesBatch, Bool.and_eq_true]
    refine ⟨hresp d hd, ?_⟩
    have hmem : msgIdString d ∈ requestIdsOf messages :=
      hperm.mem_iff.1 (List.mem_map_of_mem msgIdString hd)
    exact List.elem_iff.2 hmem
  have hrr : raceResponses
      (deliveries.foldl send (mapSet [] bid ⟨[], requestIdsOf messages, false⟩))
      bid = deliveries := by
    rw [mapSet_nil, foldl_send_single, raceResponses_singleton]
    have hres : (foldBatch (requestIdsOf messages) [] false deliveries).2 = true :=
      foldBatch_complete _ _ [] false hne hall (by simpa using hlen)
    rw [foldBatch_fst, hres, if_pos rfl, List.nil_append]
    exact List.filter_eq_self.2 hall
  rw [handlePostRequest_req [] bid messages deliveries hreq]
  refine ⟨by simp, ?_⟩
  simp [hrr]

/-- Witness for C1: the two-request call of §8, with the responses
delivered out of order ("2" then "1"): the body is exactly those two
responses. -/
theorem c1_witness :
    hasRequests [reqMsg "1" "a", reqMsg "2" "b"] = true ∧
    (requestIdsOf [reqMsg "1" "a", reqMsg "2" "b"]).Nodup ∧
    (∀ d ∈ [respMsg "2" "x", respMsg "1" "y"], isResponseMsg d = true) ∧
    (([respMsg "2" "x", respMsg "1" "y"].map msgIdString).Perm
      (requestIdsOf [reqMsg "1" "a", reqMsg "2" "b"])) ∧
    (Event.wroteHead 200 ∈
      (handlePostRequest [] "b0" [reqMsg "1" "a", reqMsg "2" "b"]
        [respMsg "2" "x", respMsg "1" "y"]).events ∧
     Event.wroteBody (formatBody [respMsg "2" "x", respMsg "1" "y"]) ∈
      (handlePostRequest [] "b0" [reqMsg "1" "a", reqMsg "2" "b"]
        [respMsg "2" "x", respMsg "1" "y"]).events) :=
  ⟨by decide, by decide, by decide, by decide,
    c1_complete_batch_returns_all_responses "b0"
      [reqMsg "1" "a", reqMsg "2" "b"] [respMsg "2" "x", respMsg "1" "y"]
      (by decide) (by decide) (by decide) (by decide)⟩

/-- C6: the body of a completed request-bearing call is the single
Response object when exactly one response was collected, and otherwise the
sequence of collected responses; the collected list is a sublist of the
deliveries taken in arrival order (collection order, not request order). -/
theorem c6_body_single_or_collection_order (bid : String)
    (messages deliveries : List JSONRPCMessage)
    (hreq : hasRequests messages = true) :
    Event.wroteBody (formatBody (collectedResponses bid messages deliveries)) ∈
      (handlePostRequest [] bid messages deliveries).events ∧
    (∀ x, collectedResponses bid messages deliveries = [x] →
      formatBody (collectedResponses bid messages deliveries) =
        HttpBody.single x) ∧
    (¬ (collectedResponses bid messages deliveries).length = 1 →
      formatBody (collectedResponses bid messages deliveries) =
        HttpBody.array (collectedResponses bid messages deliveries)) ∧
    (collectedResponses bid messages deliveries).Sublist deliveries := by
  refine ⟨?_, ?_, ?_, ?_⟩
  · rw [handlePostRequest_req [] bid messages deliveries hreq,
      raceResponses_single]
    simp
  · intro x hx
    rw [hx]
    rfl
  · exact formatBody_of_length_ne_one
  · rw [collectedResponses]
    split
    · exact List.filter_sublist deliveries
    · exact List.nil_sublist deliveries

/-- Witness for C6: the out-of-order scenario of §8 — responses arrive as
"2" then "1" and the body follows that arrival order. -/
theorem c6_witness :
    hasRequests [reqMsg "1" "a", reqMsg "2" "b"] = true ∧
    collectedResponses "c0" [reqMsg "1" "a", reqMsg "2" "b"]
      [respMsg "2" "x", respMsg "1" "y"] =
      [respMsg "2" "x", respMsg "1" "y"] ∧
    (Event.wroteBody (formatBody (collectedResponses "c0"
        [reqMsg "1" "a", reqMsg "2" "b"] [respMsg "2" "x", respMsg "1" "y"])) ∈
      (handlePostRequest [] "c0" [reqMsg "1" "a", reqMsg "2" "b"]
        [respMsg "2" "x", respMsg "1" "y"]).events ∧
     (∀ x, collectedResponses "c0" [reqMsg "1" "a", reqMsg "2" "b"]
        [respMsg "2" "x", respMsg "1" "y"] = [x] →
       formatBody (collectedResponses "c0" [reqMsg "1" "a", reqMsg "2" "b"]
         [respMsg "2" "x", respMsg "1" "y"]) = HttpBody.single x) ∧
     (¬ (collectedResponses "c0" [reqMsg "1" "a", reqMsg "2" "b"]
        [respMsg "2" "x", respMsg "1" "y"]).length = 1 →
       formatBody (collectedResponses "c0" [reqMsg "1" "a", reqMsg "2" "b"]
         [respMsg "2" "x", respMsg "1" "y"]) =
         HttpBody.array (collectedResponses "c0" [reqMsg "1" "a", reqMsg "2" "b"]
           [respMsg "2" "x", respMsg "1" "y"])) ∧
     (collectedResponses "c0" [reqMsg "1" "a", reqMsg "2" "b"]
        [respMsg "2" "x", respMsg "1" "y"]).Sublist
       [respMsg "2" "x", respMsg "1" "y"]) :=
  ⟨by decide, by decide,
    c6_body_single_or_collection_order "c0" [reqMsg "1" "a", reqMsg "2" "b"]
      [respMsg "2" "x", respMsg "1" "y"] (by decide)⟩

/-- C8: evaluated at a name present only in the environment while no
CLI-style arguments exist, the part_000 variant of getParamValue returns
the empty string without consulting the environment, while the part_001
variant returns the environment value as the spec describes. -/
theorem c8_env_fallback_evaluation :
    getParamValue_v0 [] [("token", "secret")] "token" = "" ∧
    getParamValue_v1 [] [("token", "secret")] "token" = "secret" := by
  constructor
  · rfl
  · decide
